import Mathlib

/-!
Verification of the text-preparation pipeline of `run.py` from the
handwriting-synthesis repository.

The embedding covers:
* `validate_text` (the spec's AlphabetFilter / `normalize`): per-character
  filtering against the supported alphabet, tab conversion, the substitution
  chain, and the set of recorded invalid characters.
* `wrap_text` (the spec's LineWrapper): paragraph splitting on newlines,
  blank-paragraph preservation, and a faithful embedding of CPython's
  `textwrap.wrap` with the default options used by the source
  (`break_long_words=True`, `break_on_hyphens=True`, `drop_whitespace=True`,
  `expand_tabs=True`, `replace_whitespace=True`, `tabsize=8`, no indents,
  `max_lines=None`).  `textwrap.wrap` raises `ValueError` for `width <= 0`;
  fallible behaviour is modelled with `Except`.
* `wrap_text_to_width` / the geometry-derived character limit, and the
  post-input part of `main` (text-presence check, validation, wrapping
  dispatch, empty-line-list check).

Machine integers: Python integers are unbounded, so `Int`/`Nat` model them
exactly.  The one float computation, `int(available_width / (10 * 1.5))`,
divides an integer by the exactly representable float `15.0` and truncates
toward zero; it is embedded as `Int.tdiv available_width 15`, which agrees
with the float computation for all magnitudes reachable before the clamp
to 75 takes over.

Loops are embedded as structurally recursive functions; the two loops of
`textwrap` that are not structural on their input (`_wrap_chunks`, and the
lazy word-scan of the `wordsep_re` tokenizer) take an explicit fuel argument
that is initialised to a bound larger than the number of iterations the
Python loop can perform (each iteration strictly decreases the total length
plus count of the pending chunks, respectively strictly advances the scan
position), so the embedded functions compute the same values as the loops.
-/

namespace HandwritingRun

/-- Decidable equality for `Except`, used to state and decide concrete
facts about the fallible wrapping functions. -/
instance {ε α : Type} [DecidableEq ε] [DecidableEq α] : DecidableEq (Except ε α) := fun x y =>
  match x, y with
  | .error a, .error b =>
    if h : a = b then isTrue (by rw [h]) else isFalse (fun hc => h (Except.error.inj hc))
  | .error _, .ok _ => isFalse (fun hc => Except.noConfusion hc)
  | .ok _, .error _ => isFalse (fun hc => Except.noConfusion hc)
  | .ok a, .ok b =>
    if h : a = b then isTrue (by rw [h]) else isFalse (fun hc => h (Except.ok.inj hc))

/-- The newline character. -/
def nlChar : Char := Char.ofNat 0xA

/-- The horizontal-tab character. -/
def tabChar : Char := Char.ofNat 0x9

/-- The space character. -/
def spChar : Char := Char.ofNat 0x20

/-- The hyphen-minus character. -/
def hyChar : Char := Char.ofNat 0x2D

/-- The codepoints for which Python's `str.isspace()` returns `True`
(CPython's Unicode database); `str.strip()` with no argument strips exactly
these characters, so `s.strip() == ''` tests that every character of `s`
is one of them. -/
def py_space_codes : List Nat :=
  [0x9, 0xA, 0xB, 0xC, 0xD, 0x1C, 0x1D, 0x1E, 0x1F, 0x20, 0x85, 0xA0, 0x1680,
   0x2000, 0x2001, 0x2002, 0x2003, 0x2004, 0x2005, 0x2006, 0x2007, 0x2008,
   0x2009, 0x200A, 0x2028, 0x2029, 0x202F, 0x205F, 0x3000]

/-- Python `c.isspace()`. -/
def py_isspace (c : Char) : Bool := py_space_codes.contains c.toNat

/-- Python `s.strip() == ''`: every character is whitespace (true for `''`). -/
def py_blank (l : List Char) : Bool := l.all py_isspace

/-- Python `text.split(sep)` for a single-character separator: always returns
one more part than there are separators, preserving empty parts
(`''.split(c) == ['']`). -/
def py_split (sep : Char) : List Char → List (List Char)
  | [] => [[]]
  | c :: rest =>
    if c = sep then [] :: py_split sep rest
    else
      match py_split sep rest with
      | [] => [[c]]
      | h :: t => (c :: h) :: t

namespace Textwrap

/-- The six characters of `textwrap._whitespace` (`'\t\n\x0b\x0c\r '`):
the only characters the tokenizer treats as whitespace. -/
def ws_char (c : Char) : Bool := [0x9, 0xA, 0xB, 0xC, 0xD, 0x20].contains c.toNat

/-- Python `str.expandtabs(8)`: each tab becomes spaces up to the next
multiple-of-8 column; the column counter resets after a newline or a
carriage return. -/
def expandtabs : List Char → Nat → List Char
  | [], _ => []
  | c :: rest, col =>
    if c = tabChar then
      List.replicate (8 - col % 8) spChar ++ expandtabs rest (col + (8 - col % 8))
    else if c = nlChar ∨ c = Char.ofNat 0xD then c :: expandtabs rest 0
    else c :: expandtabs rest (col + 1)

/-- `TextWrapper._munge_whitespace` with the default options: expand tabs,
then translate each of the six recognized whitespace characters to a space. -/
def munge_whitespace (l : List Char) : List Char :=
  (expandtabs l 0).map (fun c => if ws_char c then spChar else c)

/-- The regex class `\w` of `wordsep_re`, restricted to ASCII (the full class
also holds non-ASCII Unicode letters and digits, which only shift chunk
boundaries for characters the renderer cannot draw anyway). -/
def word_char (c : Char) : Bool := c.isAlphanum || c = Char.ofNat 0x5F

/-- The regex class `[^\d\W]` ("letter") of `wordsep_re`: a word character
that is not a digit. -/
def letter_char (c : Char) : Bool := word_char c && !c.isDigit

/-- The regex class `[\w!"\'&.,?]` ("word punctuation") of `wordsep_re`. -/
def word_punct (c : Char) : Bool :=
  word_char c || [0x21, 0x22, 0x27, 0x26, 0x2E, 0x2C, 0x3F].contains c.toNat

/-- Whether position `i` of `s` holds a textwrap whitespace character. -/
def is_ws_at (s : List Char) (i : Nat) : Bool :=
  match s[i]? with
  | some c => ws_char c
  | none => false

/-- Whether position `i` of `s` holds a `letter_char`. -/
def is_letter_at (s : List Char) (i : Nat) : Bool :=
  match s[i]? with
  | some c => letter_char c
  | none => false

/-- Whether position `i` of `s` holds a `word_char`. -/
def is_word_at (s : List Char) (i : Nat) : Bool :=
  match s[i]? with
  | some c => word_char c
  | none => false

/-- Whether position `i` of `s` holds a `word_punct` character. -/
def is_wp_at (s : List Char) (i : Nat) : Bool :=
  match s[i]? with
  | some c => word_punct c
  | none => false

/-- Length of the run of hyphens starting at position `i` of `s`. -/
def hyphen_run (s : List Char) (i : Nat) : Nat :=
  ((s.drop i).takeWhile (fun c => c = hyChar)).length

/-- Length of the run of textwrap whitespace starting at position `i`. -/
def ws_run (s : List Char) (i : Nat) : Nat :=
  ((s.drop i).takeWhile ws_char).length

/-- The "hyphenated word" alternative of `wordsep_re` at word endpoint `p`:
the pattern consumes a hyphen at `p` whose two preceding characters are
letter/letter or hyphen preceded by letter-hyphen-letter (lookbehinds
`(?<=[^\d\W]{2}-)` and `(?<=[^\d\W]-[^\d\W]-)`), followed by
letter, optional hyphen, letter (lookahead `(?=[^\d\W]-?[^\d\W])`). -/
def tailA (s : List Char) (p : Nat) : Bool :=
  (s[p]? == some hyChar) &&
  ((decide (2 ≤ p) && is_letter_at s (p - 2) && is_letter_at s (p - 1)) ||
   (decide (3 ≤ p) && is_letter_at s (p - 3) && (s[p-2]? == some hyChar) &&
    is_letter_at s (p - 1))) &&
  (is_letter_at s (p + 1) &&
   (is_letter_at s (p + 2) ||
    ((s[p+2]? == some hyChar) && is_letter_at s (p + 3))))

/-- The "end of word" alternative of `wordsep_re` (lookahead `(?=ws|\Z)`):
the word ends at `p` because `p` is past the end or holds whitespace. -/
def tailB (s : List Char) (p : Nat) : Bool :=
  decide (s.length ≤ p) || is_ws_at s p

/-- The "em-dash ahead" alternative of `wordsep_re` (lookbehind a
word-punctuation character, lookahead `(?=-{2,}\w)`): the word ends at `p`
before a run of at least two hyphens followed by a word character. -/
def tailC (s : List Char) (p : Nat) : Bool :=
  is_wp_at s (p - 1) && decide (2 ≤ hyphen_run s p) &&
  is_word_at s (p + hyphen_run s p)

/-- The lazy scan of the word alternative `[^ws]+?(?:...)` of `wordsep_re`:
starting from match length `m`, return the length of the word chunk
(`m + 1` when the hyphenated-word alternative consumes the hyphen at
position `i + m`).  Fuel bounds the scan; `word_len` is called with fuel
`s.length`, which exceeds the number of extension steps, since the
end-of-word alternative fires at the latest when `i + m` reaches the end
of `s`. -/
def word_len (s : List Char) (i : Nat) : Nat → Nat → Nat
  | 0, m => m
  | fuel + 1, m =>
    if tailA s (i + m) then m + 1
    else if tailB s (i + m) then m
    else if tailC s (i + m) then m
    else word_len s i fuel (m + 1)

/-- One pass of `wordsep_re.split`, reading chunks left to right from
position `i`: a maximal whitespace run, an em-dash run between words
(`(?<=wp)-{2,}(?=\w)`), or a word chunk delimited by `word_len`.
Every position matches one of the three top-level alternatives, so the
split never leaves residue (and the `[c for c in chunks if c]` filter of
`_split` removes nothing, all chunks being nonempty).  Fuel is initialised
to `s.length + 1`; each emitted chunk advances `i` by at least one. -/
def split_loop (s : List Char) : Nat → Nat → List (List Char)
  | 0, _ => []
  | fuel + 1, i =>
    if s.length ≤ i then []
    else if is_ws_at s i then
      (s.drop i).take (ws_run s i) :: split_loop s fuel (i + ws_run s i)
    else if decide (1 ≤ i) && is_wp_at s (i - 1) && decide (2 ≤ hyphen_run s i) &&
        is_word_at s (i + hyphen_run s i) then
      (s.drop i).take (hyphen_run s i) :: split_loop s fuel (i + hyphen_run s i)
    else
      (s.drop i).take (word_len s i s.length 1) ::
        split_loop s fuel (i + word_len s i s.length 1)

/-- `TextWrapper._split` with `break_on_hyphens=True`: tokenize into
whitespace runs, em-dash runs and (possibly hyphen-broken) words. -/
def split_chunks (s : List Char) : List (List Char) :=
  split_loop s (s.length + 1) 0

/-- Python `chunk.rfind('-', 0, stop)`: the greatest index below `stop`
holding a hyphen, if any. -/
def rfind_hyphen : List Char → Nat → Option Nat
  | _, 0 => none
  | [], _ => none
  | c :: rest, stop + 1 =>
    match rfind_hyphen rest stop with
    | some j => some (j + 1)
    | none => if c = hyChar then some 0 else none

/-- The `space_left` computation of `_handle_long_word`
(`1 if width < 1 else width - cur_len`). -/
def hlw_space_left (width curLen : Nat) : Nat :=
  if width < 1 then 1 else width - curLen

/-- The break position `end` chosen by `_handle_long_word` with
`break_long_words=True` and `break_on_hyphens=True`: `space_left`, or just
after the last hyphen below `space_left` when one exists with a
non-hyphen before it. -/
def hlw_break_at (spaceLeft : Nat) (chunk : List Char) : Nat :=
  if spaceLeft < chunk.length then
    match rfind_hyphen chunk spaceLeft with
    | some h =>
      if decide (1 ≤ h) && (chunk.take h).any (fun c => !(c = hyChar)) then h + 1
      else spaceLeft
    | none => spaceLeft
  else spaceLeft

/-- `TextWrapper._handle_long_word`: split the head chunk at the chosen
break position, returning the piece for the current line and the
remainder of the chunk. -/
def handle_long_word (width curLen : Nat) (chunk : List Char) : List Char × List Char :=
  (chunk.take (hlw_break_at (hlw_space_left width curLen) chunk),
   chunk.drop (hlw_break_at (hlw_space_left width curLen) chunk))

/-- The inner `while chunks:` loop of `_wrap_chunks`: move chunks onto the
current line while the accumulated length stays within `width`.  Returns
the consumed chunks, the accumulated length, and the remaining chunks. -/
def fill_line (width : Nat) : List (List Char) → Nat → List (List Char) × Nat × List (List Char)
  | [], curLen => ([], curLen, [])
  | c :: rest, curLen =>
    if curLen + c.length ≤ width then
      (c :: (fill_line width rest (curLen + c.length)).1,
       (fill_line width rest (curLen + c.length)).2.1,
       (fill_line width rest (curLen + c.length)).2.2)
    else ([], curLen, c :: rest)

/-- The drop of a trailing all-whitespace chunk from the current line
(`if cur_line and cur_line[-1].strip() == '': del cur_line[-1]`). -/
def drop_trailing_ws (cur : List (List Char)) : List (List Char) :=
  match cur.getLast? with
  | some last => if py_blank last then cur.dropLast else cur
  | none => cur

/-- One iteration of the body of `_wrap_chunks`'s outer loop after the
leading-whitespace drop, applied to the result `f` of the greedy fill:
the long-word break when the next chunk exceeds `width`, and the
trailing-whitespace drop.  Returns the chunks of the candidate line and
the remaining chunks. -/
def line_step_core (width : Nat) (f : List (List Char) × Nat × List (List Char)) :
    List (List Char) × List (List Char) :=
  match f.2.2 with
  | [] => (drop_trailing_ws f.1, [])
  | r0 :: rrest =>
    if width < r0.length then
      (drop_trailing_ws (f.1 ++ [(handle_long_word width f.2.1 r0).1]),
       (handle_long_word width f.2.1 r0).2 :: rrest)
    else (drop_trailing_ws f.1, r0 :: rrest)

/-- One iteration of the body of `_wrap_chunks`'s outer loop after the
leading-whitespace drop: greedy fill, then `line_step_core`. -/
def line_step (width : Nat) (chunks : List (List Char)) :
    List (List Char) × List (List Char) :=
  line_step_core width (fill_line width chunks 0)

/-- The leading-whitespace drop of `_wrap_chunks`: the first chunk is
removed when it is all whitespace and a line has already been emitted
(`first = false`). -/
def drop_leading_ws (first : Bool) : List (List Char) → List (List Char)
  | [] => []
  | c0 :: rest0 => if first = false ∧ py_blank c0 then rest0 else c0 :: rest0

/-- The outer `while chunks:` loop of `_wrap_chunks` (with `max_lines=None`
and empty indents).  `first` records whether no line has been emitted yet
(Python's `lines` being empty), which gates the leading-whitespace drop.
Fuel is initialised from `chunk_measure`; each iteration strictly
decreases the total length plus count of the pending chunks. -/
def wrap_chunks_loop (width : Nat) : Nat → Bool → List (List Char) → List (List Char)
  | 0, _, _ => []
  | _ + 1, _, [] => []
  | fuel + 1, first, c0 :: rest0 =>
    if (line_step width (drop_leading_ws first (c0 :: rest0))).1.isEmpty then
      wrap_chunks_loop width fuel first
        (line_step width (drop_leading_ws first (c0 :: rest0))).2
    else
      (line_step width (drop_leading_ws first (c0 :: rest0))).1.flatten ::
        wrap_chunks_loop width fuel false
          (line_step width (drop_leading_ws first (c0 :: rest0))).2

/-- Fuel bound for `wrap_chunks_loop`: total chunk length plus chunk count. -/
def chunk_measure (chunks : List (List Char)) : Nat :=
  (chunks.map List.length).sum + chunks.length

/-- `TextWrapper._wrap_chunks` for positive `width` (the `width <= 0` check
lives in `tw_wrap`). -/
def wrap_chunks (width : Nat) (chunks : List (List Char)) : List (List Char) :=
  wrap_chunks_loop width (chunk_measure chunks + 1) true chunks

/-- `textwrap.wrap(text, width=width)` with the default options used by
`run.py`: munge whitespace, tokenize, and wrap; raises `ValueError`
(modelled as `Except.error`) when `width <= 0`. -/
def tw_wrap (text : List Char) (width : Int) : Except String (List (List Char)) :=
  if width ≤ 0 then .error "invalid width (must be > 0)"
  else .ok (wrap_chunks width.toNat (split_chunks (munge_whitespace text)))

end Textwrap

/-- Modelled from the spec: the supported character set `VALID_CHARS` is
`set(alphabet)` with `alphabet` imported from `drawing.py`, which is not
part of the sources; the spec describes it as the fixed set of letters,
digits and punctuation the renderer can draw, with the substitution
examples and the tab rule showing that space, the straight quotes, the
hyphen and the period belong to it. -/
def VALID_CHARS : List Char :=
  " !\"#'(),-.0123456789:;?ABCDEFGHIJKLMNOPQRSTUVWXYZabcdefghijklmnopqrstuvwxyz".toList

/-- The substitution chain of `validate_text`'s `else` branch: the emitted
replacement characters for an invalid character (empty when the character
is skipped).  The first membership test is against the literal `'""'` of
the source, which contains the straight double quote twice (so it can
never fire after the `VALID_CHARS` test); the remaining tests cover the
single curly quotes and the backtick, the en and em dashes, and the
horizontal ellipsis. -/
def substitute (c : Char) : List Char :=
  if c ∈ "\"\"".toList then "\"".toList
  else if c ∈ "'‘’`".toList then "'".toList
  else if c ∈ "–—".toList then "-".toList
  else if c ∈ "…".toList then "...".toList
  else []

/-- The character loop of `validate_text`: keep supported characters and
newlines, turn tabs into spaces, and otherwise record the character as
invalid and emit its substitution (possibly nothing).  Returns the cleaned
characters and the set of recorded invalid characters. -/
def validate_chars : List Char → List Char × Finset Char
  | [] => ([], ∅)
  | c :: rest =>
    let r := validate_chars rest
    if c ∈ VALID_CHARS then (c :: r.1, r.2)
    else if c = nlChar then (c :: r.1, r.2)
    else if c = tabChar then (spChar :: r.1, r.2)
    else (substitute c ++ r.1, insert c r.2)

/-- `validate_text` (the spec's `normalize`): the cleaned text together
with the set of invalid characters the source accumulates and reports in
its warning message.  The Python function has no failure path; totality
of this definition models that it never raises. -/
def validate_text (text : String) : String × Finset Char :=
  let r := validate_chars text.toList
  (String.mk r.1, r.2)

/-- The per-paragraph step of `wrap_text`'s loop: a blank paragraph
contributes exactly one empty line; otherwise the paragraph is wrapped by
`textwrap.wrap` and an empty result falls back to one empty line. -/
def wrap_para (para : List Char) (max_chars : Int) : Except String (List (List Char)) :=
  if py_blank para then .ok [[]]
  else
    match Textwrap.tw_wrap para max_chars with
    | .error e => .error e
    | .ok wrapped => .ok (if wrapped.isEmpty then [[]] else wrapped)

/-- The paragraph loop of `wrap_text`, concatenating the per-paragraph
line lists in order; an exception from `textwrap.wrap` aborts the loop. -/
def wrap_paras (max_chars : Int) : List (List Char) → Except String (List (List Char))
  | [] => .ok []
  | p :: ps =>
    match wrap_para p max_chars with
    | .error e => .error e
    | .ok ls =>
      match wrap_paras max_chars ps with
      | .error e => .error e
      | .ok rest => .ok (ls ++ rest)

/-- `wrap_text(text, max_chars)`: clamp `max_chars` to the hard ceiling 75,
split on newlines, and wrap each paragraph. -/
def wrap_text (text : String) (max_chars : Int) : Except String (List String) :=
  match wrap_paras (min max_chars 75) (py_split nlChar text.toList) with
  | .error e => .error e
  | .ok ls => .ok (ls.map String.mk)

/-- The geometry-derived character limit computed inside
`wrap_text_to_width`: `char_width = avg_char_width * scale_factor = 15.0`
exactly, `max_chars = max(1, int(available_width / char_width))`, then the
hard ceiling `min(max_chars, 75)`. -/
def width_max_chars (available_width : Int) : Int :=
  min (max 1 (Int.tdiv available_width 15)) 75

/-- `wrap_text_to_width(text, available_width)` with the default geometry
constants. -/
def wrap_text_to_width (text : String) (available_width : Int) : Except String (List String) :=
  wrap_text text (width_max_chars available_width)

/-- The command-line parameters of `main` that feed the text pipeline. -/
structure Args where
  max_chars : Int
  left_margin : Int
  right_margin : Int
  view_width : Int

/-- The default argument values of `main`'s parser. -/
def default_args : Args := Args.mk 75 50 50 1000

/-- The post-input part of `main`: reject blank input text, validate,
dispatch between explicit and geometry-based wrapping (`max_chars != 75`
selects the explicit path), and reject an empty wrapped line list; the
resulting line list is what `main` hands to the renderer.  `Except.error`
models `sys.exit(1)` with the corresponding message, and an uncaught
`ValueError` from `textwrap` is propagated as its own error value. -/
def main_pipeline (text : String) (args : Args) : Except String (List String) :=
  if py_blank text.toList then .error "No text provided"
  else
    match
      (if args.max_chars ≠ 75 then
        wrap_text (validate_text text).1 args.max_chars
      else
        wrap_text_to_width (validate_text text).1
          (args.view_width - args.left_margin - args.right_margin)) with
    | .error e => .error e
    | .ok lines => if lines.isEmpty then .error "No valid text to render" else .ok lines

/-- The geometry-derived character limit as the spec words it (the
refinement target for claim C9): `availableWidth = max(1, viewWidth -
leftMargin - rightMargin)`, `maxChars = floor(availableWidth / (10 * 1.5))`
clamped to `[1, 75]`. -/
def plan_max_chars_spec (view_width left_margin right_margin : Int) : Int :=
  min (max (Int.fdiv (max 1 (view_width - left_margin - right_margin)) 15) 1) 75

/-! ## Helper lemmas about `validate_text` -/

/-- Unfolding equation for `validate_chars` on a cons cell. -/
theorem validate_chars_cons (a : Char) (rest : List Char) :
    validate_chars (a :: rest) =
      (if a ∈ VALID_CHARS then (a :: (validate_chars rest).1, (validate_chars rest).2)
       else if a = nlChar then (a :: (validate_chars rest).1, (validate_chars rest).2)
       else if a = tabChar then (spChar :: (validate_chars rest).1, (validate_chars rest).2)
       else (substitute a ++ (validate_chars rest).1, insert a (validate_chars rest).2)) := rfl

/-- Every character a substitution emits belongs to the supported set. -/
theorem substitute_valid (c x : Char) (hx : x ∈ substitute c) : x ∈ VALID_CHARS := by
  unfold substitute at hx
  split_ifs at hx
  · exact (by decide : ∀ y ∈ "\"".toList, y ∈ VALID_CHARS) x hx
  · exact (by decide : ∀ y ∈ "'".toList, y ∈ VALID_CHARS) x hx
  · exact (by decide : ∀ y ∈ "-".toList, y ∈ VALID_CHARS) x hx
  · exact (by decide : ∀ y ∈ "...".toList, y ∈ VALID_CHARS) x hx
  · simp at hx

/-- Every character the validation loop emits is supported or a newline. -/
theorem validate_chars_fst_valid (l : List Char) :
    ∀ c ∈ (validate_chars l).1, c ∈ VALID_CHARS ∨ c = nlChar := by
  induction l with
  | nil => intro c hc; simp [validate_chars] at hc
  | cons a rest ih =>
    intro c hc
    rw [validate_chars_cons] at hc
    split_ifs at hc with h1 h2 h3
    · rcases List.mem_cons.mp hc with h | h
      · exact Or.inl (h ▸ h1)
      · exact ih c h
    · rcases List.mem_cons.mp hc with h | h
      · exact Or.inr (h.trans h2)
      · exact ih c h
    · rcases List.mem_cons.mp hc with h | h
      · exact Or.inl (h ▸ (by decide : spChar ∈ VALID_CHARS))
      · exact ih c h
    · rcases List.mem_append.mp hc with h | h
      · exact Or.inl (substitute_valid a c h)
      · exact ih c h

/-- The validation loop is the identity (and records nothing) on character
lists made of supported characters and newlines. -/
theorem validate_chars_id (l : List Char)
    (h : ∀ c ∈ l, c ∈ VALID_CHARS ∨ c = nlChar) : validate_chars l = (l, ∅) := by
  induction l with
  | nil => rfl
  | cons a rest ih =>
    rw [validate_chars_cons, ih (fun c hc => h c (List.mem_cons_of_mem a hc))]
    rcases h a (List.mem_cons_self a rest) with ha | ha
    · rw [if_pos ha]
    · by_cases hv : a ∈ VALID_CHARS
      · rw [if_pos hv]
      · rw [if_neg hv, if_pos ha]

/-! ## Claims about `validate_text` (the spec's `normalize`) -/

/-- C5: applying `normalize` twice equals applying it once; the cleaned
output of `validate_text` consists of supported characters and newlines,
on which a second pass is the identity. -/
theorem c5_normalize_idempotent (x : String) :
    (validate_text (validate_text x).1).1 = (validate_text x).1 := by
  show String.mk (validate_chars (validate_chars x.toList).1).1
      = String.mk (validate_chars x.toList).1
  rw [validate_chars_id _ (validate_chars_fst_valid x.toList)]

/-- C6: on input composed exclusively of supported characters and newlines,
`validate_text` returns the input unchanged and records no invalid
characters. -/
theorem c6_normalize_identity (x : String)
    (h : ∀ c ∈ x.toList, c ∈ VALID_CHARS ∨ c = nlChar) :
    validate_text x = (x, ∅) := by
  show (String.mk (validate_chars x.toList).1, (validate_chars x.toList).2) = (x, ∅)
  rw [validate_chars_id x.toList h]
  rfl

/-- Witness for C6 at the concrete input `"Hello"`. -/
theorem c6_normalize_identity_witness : validate_text "Hello" = ("Hello", ∅) :=
  c6_normalize_identity "Hello" (by decide)

/-- C7: `validate_text` is total (it has no failure path, modelling that
the Python function never raises), and every character of its cleaned
output is a supported character or a newline. -/
theorem c7_normalize_output_supported (x : String) (c : Char)
    (h : c ∈ ((validate_text x).1).toList) : c ∈ VALID_CHARS ∨ c = nlChar :=
  validate_chars_fst_valid x.toList c h

/-- Witness for C7: the character `H` of the cleaned output of `"H€"`. -/
theorem c7_normalize_output_supported_witness : 'H' ∈ VALID_CHARS ∨ 'H' = nlChar :=
  c7_normalize_output_supported "H€" 'H' (by decide)

/-- C3 counterexample: on the input consisting of one em dash,
`validate_text` emits the substitution `"-"` (so the em dash has a
substitution and is substituted), yet its dropped-characters set is
`{em dash}`, not the empty set the claim predicts for a substituted
character: the source adds every unsupported non-newline non-tab character
to `invalid_chars` before trying the substitutions. -/
theorem c3_dropped_set_counterexample :
    validate_text "—" = ("-", {Char.ofNat 0x2014}) := by decide

/-- C3 amended: the dropped set recorded and reported by `validate_text`
contains exactly the characters of the input that are outside the
supported set and are neither a newline nor a tab — including characters
that are substituted, which are emitted as their replacement but still
recorded. -/
theorem c3_amended_dropped_set (text : String) :
    (validate_text text).2 =
      (text.toList.filter
        (fun c => decide (c ∉ VALID_CHARS ∧ c ≠ nlChar ∧ c ≠ tabChar))).toFinset := by
  show (validate_chars text.toList).2 = _
  induction text.toList with
  | nil => rfl
  | cons a rest ih =>
    rw [validate_chars_cons, List.filter_cons]
    by_cases h1 : a ∈ VALID_CHARS
    · rw [if_pos h1]
      have hp : decide (a ∉ VALID_CHARS ∧ a ≠ nlChar ∧ a ≠ tabChar) = false := by
        simp [h1]
      simp [hp, ih]
    · rw [if_neg h1]
      by_cases h2 : a = nlChar
      · rw [if_pos h2]
        have hp : decide (a ∉ VALID_CHARS ∧ a ≠ nlChar ∧ a ≠ tabChar) = false := by
          simp [h2]
        simp [hp, ih]
      · rw [if_neg h2]
        by_cases h3 : a = tabChar
        · rw [if_pos h3]
          have hp : decide (a ∉ VALID_CHARS ∧ a ≠ nlChar ∧ a ≠ tabChar) = false := by
            simp [h3]
          simp [hp, ih]
        · rw [if_neg h3]
          have hp : decide (a ∉ VALID_CHARS ∧ a ≠ nlChar ∧ a ≠ tabChar) = true := by
            simp [h1, h2, h3]
          simp [hp, ih, List.toFinset_cons]

/-! ## Claim C9: the geometry-derived character limit -/

/-- C9: with no explicit override, the character limit computed by `main`
plus `wrap_text_to_width` equals the spec's formula
`clamp(floor(max(1, viewWidth - leftMargin - rightMargin) / 15), 1, 75)`
for every integer geometry, and with the default geometry
(`viewWidth 1000`, margins 50) it equals `floor(900 / 15) = 60`. -/
theorem c9_geometry_limit :
    (∀ vw lm rm : Int, width_max_chars (vw - lm - rm) = plan_max_chars_spec vw lm rm) ∧
    width_max_chars (1000 - 50 - 50) = 60 := by
  constructor
  · intro vw lm rm
    unfold width_max_chars plan_max_chars_spec
    set a := vw - lm - rm with ha
    rcases le_or_lt a 0 with h | h
    · have h1 : max (1:Int) a = 1 := max_eq_left (by omega)
      have h2 : Int.fdiv 1 15 = 0 := by decide
      have h3 : Int.tdiv a 15 ≤ 0 := by
        have h4 := Int.tdiv_nonneg (by omega : (0:Int) ≤ -a) (by norm_num : (0:Int) ≤ 15)
        rw [Int.neg_tdiv] at h4
        omega
      rw [h1, h2]
      omega
    · have h1 : max (1:Int) a = a := max_eq_right (by omega)
      rw [h1, Int.fdiv_eq_tdiv (by omega) (by norm_num)]
      omega
  · decide

/-! ## Claim C1: empty-after-filtering input is not rejected -/

/-- C1 (code bug evaluation): for the input `"§"` — not blank, so it passes
the `text.strip()` check, but consisting of one unsupported,
non-substitutable character — the pipeline with default arguments returns
success with the single-blank-line list `[""]` and hands it to the
renderer, instead of signalling an `EmptyInputError`-style failure; the
source's `if not lines` guard (its `"No valid text to render"` exit) can
never fire because wrapping always yields at least one line. -/
theorem c1_empty_after_filter_not_fatal :
    main_pipeline "§" default_args = Except.ok [""] := by decide

/-! ## Claim C2: `max_chars < 1` is not clamped -/

/-- C2 counterexample: `wrap_text` with `max_chars = 0` on the one-character
text `"a"` fails with `textwrap`'s `ValueError` (modelled as
`Except.error`) instead of behaving as if `max_chars` had been clamped
to 1 (which would return `.ok ["a"]`): the source clamps only from above
(`min(max_chars, 75)`), never from below. -/
theorem c2_not_clamped_counterexample :
    wrap_text "a" 0 = Except.error "invalid width (must be > 0)" := by decide

/-- Wrapping with a non-positive width fails as soon as the paragraph list
contains a non-blank paragraph. -/
theorem wrap_paras_error_of_nonpos (w : Int) (hw : w ≤ 0) :
    ∀ ps : List (List Char), (∃ p ∈ ps, py_blank p = false) →
      wrap_paras w ps = Except.error "invalid width (must be > 0)" := by
  intro ps
  induction ps with
  | nil => rintro ⟨p, hp, _⟩; simp at hp
  | cons q qs ih =>
    rintro ⟨p, hp, hpb⟩
    by_cases hq : py_blank q = true
    · have hptail : p ∈ qs := by
        rcases List.mem_cons.mp hp with h | h
        · rw [h, hq] at hpb; cases hpb
        · exact h
      have hq1 : wrap_para q w = Except.ok [[]] := by
        unfold wrap_para; rw [if_pos hq]
      unfold wrap_paras
      rw [hq1, ih ⟨p, hptail, hpb⟩]
    · have hq1 : wrap_para q w = Except.error "invalid width (must be > 0)" := by
        unfold wrap_para Textwrap.tw_wrap
        rw [if_neg hq, if_pos hw]
      unfold wrap_paras
      rw [hq1]

/-- C2 amended: for every `maxChars < 1`, `wrap_text` raises `textwrap`'s
`ValueError` whenever some paragraph of the text contains non-whitespace
content; `maxChars` is not clamped to 1.  (Only when every paragraph is
blank does the wrap complete, because `textwrap.wrap` is never called.) -/
theorem c2_amended_wrap_fails (text : String) (m : Int) (hm : m < 1)
    (h : ∃ p ∈ py_split nlChar text.toList, py_blank p = false) :
    wrap_text text m = Except.error "invalid width (must be > 0)" := by
  unfold wrap_text
  rw [wrap_paras_error_of_nonpos (min m 75) (by omega) _ h]

/-- Witness for the amended C2 at text `"b"` and `max_chars = 0`. -/
theorem c2_amended_wrap_fails_witness :
    wrap_text "b" 0 = Except.error "invalid width (must be > 0)" :=
  c2_amended_wrap_fails "b" 0 (by decide) (by decide)

/-! ## Claim C10: wrapping never yields an empty line list -/

/-- `py_split` never returns the empty list. -/
theorem py_split_ne_nil (sep : Char) (l : List Char) : py_split sep l ≠ [] := by
  cases l with
  | nil => simp [py_split]
  | cons c rest =>
    unfold py_split
    split
    · simp
    · split <;> simp

/-- A single paragraph always wraps (for positive width) to a nonempty
line list: a blank paragraph gives one empty line, and an empty
`textwrap.wrap` result falls back to one empty line. -/
theorem wrap_para_ok_ne_nil (p : List Char) (w : Int) (hw : 1 ≤ w) :
    ∃ ls, wrap_para p w = Except.ok ls ∧ ls ≠ [] := by
  unfold wrap_para Textwrap.tw_wrap
  by_cases hb : py_blank p = true
  · rw [if_pos hb]
    exact ⟨[[]], rfl, by simp⟩
  · rw [if_neg hb, if_neg (by omega : ¬ w ≤ 0)]
    refine ⟨_, rfl, ?_⟩
    split
    · simp
    · next hne => exact List.isEmpty_eq_false.mp (by revert hne; cases h : List.isEmpty _ <;> simp)

/-- The paragraph loop succeeds for positive width and returns a nonempty
list when given at least one paragraph. -/
theorem wrap_paras_ok_ne_nil (w : Int) (hw : 1 ≤ w) :
    ∀ ps, ∃ ls, wrap_paras w ps = Except.ok ls ∧ (ps ≠ [] → ls ≠ []) := by
  intro ps
  induction ps with
  | nil => exact ⟨[], rfl, by simp⟩
  | cons q qs ih =>
    obtain ⟨l0, h0, hne⟩ := wrap_para_ok_ne_nil q w hw
    obtain ⟨lr, hr, _⟩ := ih
    refine ⟨l0 ++ lr, ?_, ?_⟩
    · unfold wrap_paras
      rw [h0, hr]
    · intro _ hc
      exact hne (List.append_eq_nil.mp hc).1

/-- A successful `wrap_para` result is never the empty list, for any width. -/
theorem wrap_para_ok_imp_ne_nil (p : List Char) (w : Int) (ls : List (List Char))
    (h : wrap_para p w = Except.ok ls) : ls ≠ [] := by
  unfold wrap_para at h
  split at h
  · cases h; simp
  · split at h
    · cases h
    · cases h
      split
      · simp
      · next hne => exact List.isEmpty_eq_false.mp (by revert hne; cases h : List.isEmpty _ <;> simp)

/-- A successful `wrap_paras` result over a nonempty paragraph list is
never the empty list, for any width. -/
theorem wrap_paras_ok_imp_ne_nil (w : Int) :
    ∀ ps ls, wrap_paras w ps = Except.ok ls → ps ≠ [] → ls ≠ [] := by
  intro ps
  induction ps with
  | nil => intro ls _ hc; cases hc rfl
  | cons q qs ih =>
    intro ls h _
    unfold wrap_paras at h
    cases h0 : wrap_para q w with
    | error e => rw [h0] at h; cases h
    | ok l0 =>
      rw [h0] at h
      cases hr : wrap_paras w qs with
      | error e => rw [hr] at h; cases h
      | ok lr =>
        rw [hr] at h
        cases h
        intro hc
        exact wrap_para_ok_imp_ne_nil q w l0 h0 (List.append_eq_nil.mp hc).1

/-- The only error value `tw_wrap` can produce is the invalid-width
`ValueError`. -/
theorem tw_wrap_error_value (p : List Char) (w : Int) (e : String)
    (h : Textwrap.tw_wrap p w = Except.error e) : e = "invalid width (must be > 0)" := by
  unfold Textwrap.tw_wrap at h
  split at h
  · exact (Except.error.inj h).symm
  · cases h

/-- The only error value `wrap_para` can produce is the invalid-width
`ValueError`. -/
theorem wrap_para_error_value (p : List Char) (w : Int) (e : String)
    (h : wrap_para p w = Except.error e) : e = "invalid width (must be > 0)" := by
  unfold wrap_para at h
  split at h
  · cases h
  · cases ht : Textwrap.tw_wrap p w with
    | error e0 =>
      rw [ht] at h
      cases h
      exact tw_wrap_error_value p w _ ht
    | ok ws => rw [ht] at h; cases h

/-- The only error value `wrap_paras` can produce is `textwrap`'s
invalid-width `ValueError`. -/
theorem wrap_paras_error_value (w : Int) :
    ∀ ps e, wrap_paras w ps = Except.error e → e = "invalid width (must be > 0)" := by
  intro ps
  induction ps with
  | nil => intro e h; cases h
  | cons q qs ih =>
    intro e h
    unfold wrap_paras at h
    cases h0 : wrap_para q w with
    | error e0 =>
      rw [h0] at h
      cases h
      exact wrap_para_error_value q w _ h0
    | ok l0 =>
      rw [h0] at h
      cases hr : wrap_paras w qs with
      | error e1 => rw [hr] at h; cases h; exact ih _ hr
      | ok lr => rw [hr] at h; cases h

/-- C10: for every text and every `maxChars >= 1`, `wrap_text` succeeds
with at least one line; and, for every text and arguments whatsoever, the
`main` pipeline can never reach its `"No valid text to render"` exit —
the branch guarding an empty wrapped line list is dead code. -/
theorem c10_wrap_never_empty :
    (∀ (text : String) (m : Int), 1 ≤ m →
      ∃ lines, wrap_text text m = Except.ok lines ∧ lines ≠ []) ∧
    (∀ (text : String) (args : Args),
      main_pipeline text args ≠ Except.error "No valid text to render") := by
  have hok : ∀ (text : String) (m : Int) (lines : List String),
      wrap_text text m = Except.ok lines → lines ≠ [] := by
    intro text m lines h
    unfold wrap_text at h
    cases hw : wrap_paras (min m 75) (py_split nlChar text.toList) with
    | error e => rw [hw] at h; cases h
    | ok ls =>
      rw [hw] at h
      cases h
      have := wrap_paras_ok_imp_ne_nil (min m 75) _ ls hw (py_split_ne_nil nlChar text.toList)
      simp [this]
  constructor
  · intro text m hm
    obtain ⟨ls, hls, hne⟩ :=
      wrap_paras_ok_ne_nil (min m 75) (by omega) (py_split nlChar text.toList)
    refine ⟨ls.map String.mk, ?_, ?_⟩
    · unfold wrap_text
      rw [hls]
    · have := hne (py_split_ne_nil nlChar text.toList)
      simp [this]
  · have herr : ∀ (t : String) (m : Int) (e : String), wrap_text t m = Except.error e →
        e = "invalid width (must be > 0)" := by
      intro t m e h
      unfold wrap_text at h
      cases hw : wrap_paras (min m 75) (py_split nlChar t.toList) with
      | error e0 => rw [hw] at h; cases h; exact wrap_paras_error_value _ _ _ hw
      | ok ls => rw [hw] at h; cases h
    have key : ∀ (t : String) (m : Int),
        (match wrap_text t m with
         | .error e => .error e
         | .ok lines =>
            if lines.isEmpty then .error "No valid text to render" else .ok lines) ≠
          (Except.error "No valid text to render" : Except String (List String)) := by
      intro t m
      cases h : wrap_text t m with
      | error e =>
        intro hc
        have he := herr t m e h
        have : e = "No valid text to render" := Except.error.inj hc
        rw [he] at this
        exact absurd this (by decide)
      | ok lines =>
        have hne := hok t m lines h
        show (if lines.isEmpty = true then Except.error "No valid text to render"
            else Except.ok lines) ≠ Except.error "No valid text to render"
        rw [List.isEmpty_eq_false.mpr hne]
        intro hc
        cases hc
    intro text args
    unfold main_pipeline
    split
    · intro hc
      exact absurd (Except.error.inj hc) (by decide)
    · by_cases hd : args.max_chars ≠ 75
      · rw [if_pos hd]
        exact key _ args.max_chars
      · rw [if_neg hd]
        exact key _ (width_max_chars (args.view_width - args.left_margin - args.right_margin))

/-- Witness for C10 at the empty text and `max_chars = 1`. -/
theorem c10_wrap_never_empty_witness :
    (∃ lines, wrap_text "" 1 = Except.ok lines ∧ lines ≠ []) ∧
    main_pipeline "" default_args ≠ Except.error "No valid text to render" :=
  ⟨c10_wrap_never_empty.1 "" 1 (by decide), c10_wrap_never_empty.2 "" default_args⟩

/-! ## Claim C4: the 75-character hard ceiling -/

/-- The accumulated length returned by the greedy fill equals the starting
length plus the total length of the consumed chunks. -/
theorem fill_line_len (width : Nat) :
    ∀ (chunks : List (List Char)) (curLen : Nat),
      (Textwrap.fill_line width chunks curLen).2.1 =
        curLen + (((Textwrap.fill_line width chunks curLen).1).map List.length).sum := by
  intro chunks
  induction chunks with
  | nil => intro c; simp [Textwrap.fill_line]
  | cons a rest ih =>
    intro c
    unfold Textwrap.fill_line
    split
    · simp only [List.map_cons, List.sum_cons]
      rw [ih (c + a.length)]
      omega
    · simp

/-- The greedy fill never exceeds the width it started under. -/
theorem fill_line_le (width : Nat) :
    ∀ (chunks : List (List Char)) (curLen : Nat), curLen ≤ width →
      (Textwrap.fill_line width chunks curLen).2.1 ≤ width := by
  intro chunks
  induction chunks with
  | nil => intro c hc; simpa [Textwrap.fill_line] using hc
  | cons a rest ih =>
    intro c hc
    unfold Textwrap.fill_line
    split
    · next hfit => exact ih (c + a.length) hfit
    · simpa using hc

/-- `rfind_hyphen` returns an index below its bound. -/
theorem rfind_hyphen_lt :
    ∀ (l : List Char) (stop h : Nat), Textwrap.rfind_hyphen l stop = some h → h < stop := by
  intro l
  induction l with
  | nil =>
    intro stop h hh
    cases stop <;> simp [Textwrap.rfind_hyphen] at hh
  | cons c rest ih =>
    intro stop h hh
    cases stop with
    | zero => simp [Textwrap.rfind_hyphen] at hh
    | succ s =>
      unfold Textwrap.rfind_hyphen at hh
      cases hr : Textwrap.rfind_hyphen rest s with
      | some j =>
        rw [hr] at hh
        have hinj := Option.some.inj hh
        have := ih s j hr
        omega
      | none =>
        rw [hr] at hh
        by_cases hc : c = hyChar
        · rw [if_pos hc] at hh
          have hinj := Option.some.inj hh
          omega
        · rw [if_neg hc] at hh
          cases hh

/-- The break position chosen by `_handle_long_word` never exceeds the
available space. -/
theorem hlw_break_at_le (spaceLeft : Nat) (chunk : List Char) :
    Textwrap.hlw_break_at spaceLeft chunk ≤ spaceLeft := by
  unfold Textwrap.hlw_break_at
  by_cases h1 : spaceLeft < chunk.length
  · rw [if_pos h1]
    cases hr : Textwrap.rfind_hyphen chunk spaceLeft with
    | some h =>
      have hlt := rfind_hyphen_lt chunk spaceLeft h hr
      show (if (decide (1 ≤ h) && (chunk.take h).any (fun c => !(c = hyChar))) = true then h + 1
          else spaceLeft) ≤ spaceLeft
      by_cases h2 : (decide (1 ≤ h) && (chunk.take h).any (fun c => !(c = hyChar))) = true
      · rw [if_pos h2]
        omega
      · rw [if_neg h2]
    | none => exact le_refl _
  · rw [if_neg h1]

/-- The long-word piece moved onto the current line fits in the space the
line has left. -/
theorem handle_long_word_fst_le (width curLen : Nat) (chunk : List Char) :
    ((Textwrap.handle_long_word width curLen chunk).1).length ≤
      Textwrap.hlw_space_left width curLen := by
  unfold Textwrap.handle_long_word
  calc (chunk.take (Textwrap.hlw_break_at (Textwrap.hlw_space_left width curLen) chunk)).length
      ≤ Textwrap.hlw_break_at (Textwrap.hlw_space_left width curLen) chunk := by
        rw [List.length_take]; omega
    _ ≤ Textwrap.hlw_space_left width curLen := hlw_break_at_le _ chunk

/-- Dropping a trailing whitespace chunk never increases the line length. -/
theorem drop_trailing_ws_sum_le (cur : List (List Char)) :
    (((Textwrap.drop_trailing_ws cur).map List.length).sum) ≤ ((cur.map List.length).sum) := by
  unfold Textwrap.drop_trailing_ws
  cases h : cur.getLast? with
  | none => exact le_refl _
  | some last =>
    show (List.map List.length (if py_blank last = true then cur.dropLast else cur)).sum ≤
      (List.map List.length cur).sum
    by_cases hb : py_blank last = true
    · rw [if_pos hb]
      exact List.Sublist.sum_le_sum ((List.dropLast_sublist cur).map List.length) (by simp)
    · rw [if_neg hb]

/-- The candidate line assembled by one loop iteration fits in `width`. -/
theorem line_step_core_fst_le (width : Nat) (hw : 1 ≤ width)
    (cur : List (List Char)) (curLen : Nat) (rem : List (List Char))
    (hlen : curLen = (cur.map List.length).sum) (hle : curLen ≤ width) :
    (((Textwrap.line_step_core width (cur, curLen, rem)).1).map List.length).sum ≤ width := by
  cases rem with
  | nil =>
    show (((Textwrap.drop_trailing_ws cur)).map List.length).sum ≤ width
    exact le_trans (drop_trailing_ws_sum_le cur) (by omega)
  | cons r0 rrest =>
    have hred : Textwrap.line_step_core width (cur, curLen, r0 :: rrest) =
        if width < r0.length then
          (Textwrap.drop_trailing_ws (cur ++ [(Textwrap.handle_long_word width curLen r0).1]),
           (Textwrap.handle_long_word width curLen r0).2 :: rrest)
        else (Textwrap.drop_trailing_ws cur, r0 :: rrest) := rfl
    rw [hred]
    by_cases hr : width < r0.length
    · rw [if_pos hr]
      refine le_trans (drop_trailing_ws_sum_le _) ?_
      rw [List.map_append, List.sum_append]
      have hp := handle_long_word_fst_le width curLen r0
      unfold Textwrap.hlw_space_left at hp
      rw [if_neg (by omega)] at hp
      simp only [List.map_cons, List.map_nil, List.sum_cons, List.sum_nil]
      omega
    · rw [if_neg hr]
      exact le_trans (drop_trailing_ws_sum_le cur) (by omega)

/-- The line produced by `line_step` fits in `width`. -/
theorem line_step_fst_le (width : Nat) (hw : 1 ≤ width) (chunks : List (List Char)) :
    (((Textwrap.line_step width chunks).1).map List.length).sum ≤ width := by
  unfold Textwrap.line_step
  exact line_step_core_fst_le width hw
    (Textwrap.fill_line width chunks 0).1
    (Textwrap.fill_line width chunks 0).2.1
    (Textwrap.fill_line width chunks 0).2.2
    (by have := fill_line_len width chunks 0; omega)
    (fill_line_le width chunks 0 (by omega))

/-- Every line emitted by the wrapping loop has length at most `width`. -/
theorem wrap_chunks_loop_len_le (width : Nat) (hw : 1 ≤ width) :
    ∀ (fuel : Nat) (first : Bool) (chunks : List (List Char)),
      ∀ l ∈ Textwrap.wrap_chunks_loop width fuel first chunks, l.length ≤ width := by
  intro fuel
  induction fuel with
  | zero =>
    intro first chunks l hl
    simp [Textwrap.wrap_chunks_loop] at hl
  | succ n ih =>
    intro first chunks l hl
    cases chunks with
    | nil => simp [Textwrap.wrap_chunks_loop] at hl
    | cons c0 rest0 =>
      rw [Textwrap.wrap_chunks_loop] at hl
      split at hl
      · exact ih first _ l hl
      · rcases List.mem_cons.mp hl with h | h
        · rw [h, List.length_flatten]
          exact line_step_fst_le width hw _
        · exact ih false _ l h

/-- Every line of a successful `tw_wrap` fits in the clamped width. -/
theorem tw_wrap_lines_le (p : List Char) (w : Int) (ls : List (List Char))
    (h : Textwrap.tw_wrap p w = Except.ok ls) :
    ∀ l ∈ ls, l.length ≤ w.toNat := by
  unfold Textwrap.tw_wrap at h
  split at h
  · cases h
  · next hw =>
    cases h
    exact wrap_chunks_loop_len_le w.toNat (by omega) _ _ _

/-- Every line of a successful `wrap_para` fits in the clamped width. -/
theorem wrap_para_lines_le (p : List Char) (w : Int) (ls : List (List Char))
    (h : wrap_para p w = Except.ok ls) : ∀ l ∈ ls, l.length ≤ w.toNat := by
  unfold wrap_para at h
  split at h
  · cases h
    intro l hl
    rw [List.mem_singleton] at hl
    rw [hl]
    simp
  · cases ht : Textwrap.tw_wrap p w with
    | error e => rw [ht] at h; cases h
    | ok ws =>
      rw [ht] at h
      cases h
      intro l hl
      split at hl
      · rw [List.mem_singleton] at hl
        rw [hl]
        simp
      · exact tw_wrap_lines_le p w ws ht l hl

/-- Every line of a successful `wrap_paras` fits in the clamped width. -/
theorem wrap_paras_lines_le (w : Int) :
    ∀ (ps : List (List Char)) (ls : List (List Char)),
      wrap_paras w ps = Except.ok ls → ∀ l ∈ ls, l.length ≤ w.toNat := by
  intro ps
  induction ps with
  | nil =>
    intro ls h l hl
    cases h
    simp at hl
  | cons q qs ih =>
    intro ls h l hl
    unfold wrap_paras at h
    cases h0 : wrap_para q w with
    | error e => rw [h0] at h; cases h
    | ok l0 =>
      rw [h0] at h
      cases hr : wrap_paras w qs with
      | error e => rw [hr] at h; cases h
      | ok lr =>
        rw [hr] at h
        cases h
        rcases List.mem_append.mp hl with hm | hm
        · exact wrap_para_lines_le q w l0 h0 l hm
        · exact ih lr hr l hm

/-- C4: for every input text and every requested `maxChars` (including
values above 75), every line of a successful `wrap_text` has length at
most 75. -/
theorem c4_hard_ceiling (text : String) (m : Int) (lines : List String)
    (h : wrap_text text m = Except.ok lines) : ∀ l ∈ lines, l.length ≤ 75 := by
  unfold wrap_text at h
  cases hw : wrap_paras (min m 75) (py_split nlChar text.toList) with
  | error e => rw [hw] at h; cases h
  | ok ls =>
    rw [hw] at h
    cases h
    intro l hl
    rcases List.mem_map.mp hl with ⟨cl, hcl, rfl⟩
    have h1 := wrap_paras_lines_le (min m 75) _ ls hw cl hcl
    have h2 : (min m 75).toNat ≤ 75 := by omega
    show cl.length ≤ 75
    omega

/-- Witness for C4 at text `"hello"` and the over-ceiling request 100. -/
theorem c4_hard_ceiling_witness :
    wrap_text "hello" 100 = Except.ok ["hello"] ∧ ("hello" : String).length ≤ 75 :=
  ⟨by decide, c4_hard_ceiling "hello" 100 ["hello"] (by decide) "hello" (by decide)⟩

/-! ## Claim C8: blank-line preservation -/

/-- Evaluation lemma for `wrap_para` on a non-blank paragraph wrapping to
a known nonempty chunk result. -/
theorem wrap_para_eval (p : List Char) (w : Int) (out : List (List Char))
    (hb : py_blank p = false) (hw : ¬ w ≤ 0)
    (hc : Textwrap.wrap_chunks w.toNat
        (Textwrap.split_chunks (Textwrap.munge_whitespace p)) = out)
    (hne : out.isEmpty = false) :
    wrap_para p w = Except.ok out := by
  unfold wrap_para Textwrap.tw_wrap
  rw [if_neg (by simp [hb]), if_neg hw, hc]
  show Except.ok (if out.isEmpty = true then [[]] else out) = Except.ok out
  rw [hne]
  simp

/-- C8: every blank (empty or all-whitespace) paragraph contributes exactly
one empty-string line in its position, and wrapping
`"line one\n\nline two"` with any `maxChars >= 8` yields exactly the three
lines `"line one"`, `""`, `"line two"` in order. -/
theorem c8_blank_line_preservation :
    (∀ (para : List Char) (mc : Int), py_blank para = true →
      wrap_para para mc = Except.ok [[]]) ∧
    (∀ m : Int, 8 ≤ m →
      wrap_text "line one\n\nline two" m = Except.ok ["line one", "", "line two"]) := by
  constructor
  · intro para mc h
    unfold wrap_para
    rw [if_pos h]
  · intro m hm
    have key : ∀ n : Nat, n < 76 → 8 ≤ n →
        (Textwrap.wrap_chunks n
            (Textwrap.split_chunks (Textwrap.munge_whitespace ("line one".toList))) =
            ["line one".toList] ∧
         Textwrap.wrap_chunks n
            (Textwrap.split_chunks (Textwrap.munge_whitespace ("line two".toList))) =
            ["line two".toList]) := by decide
    have hnn : ¬ (min m 75 ≤ 0) := by omega
    obtain ⟨k1, k2⟩ := key (min m 75).toNat (by omega) (by omega)
    have h1 : wrap_para ("line one".toList) (min m 75) = Except.ok ["line one".toList] :=
      wrap_para_eval _ _ _ (by decide) hnn k1 (by decide)
    have h2 : wrap_para ([] : List Char) (min m 75) = Except.ok [[]] := by
      unfold wrap_para
      rw [if_pos (by decide)]
    have h3 : wrap_para ("line two".toList) (min m 75) = Except.ok ["line two".toList] :=
      wrap_para_eval _ _ _ (by decide) hnn k2 (by decide)
    have hsplit : py_split nlChar ("line one\n\nline two".toList) =
        ["line one".toList, [], "line two".toList] := by decide
    have e3 : wrap_paras (min m 75) ["line two".toList] = Except.ok ["line two".toList] := by
      unfold wrap_paras
      rw [h3]
      rfl
    have e2 : wrap_paras (min m 75) [[], "line two".toList] =
        Except.ok [[], "line two".toList] := by
      unfold wrap_paras
      rw [h2, e3]
      rfl
    have hps : wrap_paras (min m 75) ["line one".toList, [], "line two".toList] =
        Except.ok ["line one".toList, [], "line two".toList] := by
      unfold wrap_paras
      rw [h1, e2]
      rfl
    unfold wrap_text
    rw [hsplit, hps]
    rfl

/-- Witness for C8: a one-space paragraph contributes one empty line, and
the concrete three-line example at `maxChars = 10`. -/
theorem c8_blank_line_preservation_witness :
    wrap_para [spChar] 5 = Except.ok [[]] ∧
    wrap_text "line one\n\nline two" 10 = Except.ok ["line one", "", "line two"] :=
  ⟨c8_blank_line_preservation.1 [spChar] 5 (by decide),
   c8_blank_line_preservation.2 10 (by decide)⟩

end HandwritingRun

